import Mathlib

set_option maxRecDepth 2048

/-!
# Formal model of `cloudbuild-k8s-generator.py`

A shallow embedding of the generator script. The script

* lists the immediate children of the directory `k8s`, keeps those that are
  directories, sorts the names ascending, and drops the names in a static
  `skiplist`;
* renders the Jinja2 template `CLOUDBUILD_TEMPLATE` with the resulting
  `solutions` list and the static `extra_configs` map, and appends `"\n"`;
* in write mode overwrites `cloudbuild.yaml` with the rendered text, in
  verify mode (`--verify_only`) compares the file's text against the
  rendered text and exits 0 on a match, 1 otherwise.

The rendering functions below produce the exact text the Jinja2 template
produces: a `{%-` tag strips the whitespace that precedes it in the template,
so every Build and Verify block comes out as a fragment that starts with one
blank line (`"\n\n- id: ..."`) and ends unterminated, and the whole document
is the fixed header followed by the concatenation of those fragments.
Reading a file with Python's `open(..., 'r')` uses universal-newline
translation (`"\r\n"` and a lone `"\r"` both become `"\n"`); `readText`
models that, and writing on a POSIX system stores the string unchanged.
-/

namespace CloudbuildGen

/-- `CLOUDBUILD_CONFIG = 'cloudbuild.yaml'`: the fixed output path. -/
def CLOUDBUILD_CONFIG : String := "cloudbuild.yaml"

/-- The static skip-list of solutions excluded from generation
(`skiplist = ['elastic-gke-logging', 'elasticsearch', 'spark-operator']`). -/
def skiplist : List String := ["elastic-gke-logging", "elasticsearch", "spark-operator"]

/-- One entry of the `extra_configs` map: a display name and the
environment-variable assignment strings of one non-default variant. -/
structure ExtraConfig where
  name : String
  env_vars : List String
deriving DecidableEq

/-- The static `extra_configs` dict of the script: one entry, for
`wordpress`, with two named variants. -/
def extra_configs : List (String × List ExtraConfig) :=
  [("wordpress",
    [{ name := "Public service and ingress",
       env_vars := ["PUBLIC_SERVICE_AND_INGRESS_ENABLED=true"] },
     { name := "Prometheus metrics",
       env_vars := ["METRICS_EXPORTER_ENABLED=true"] }])]

/-- The template's `extra_configs[solution]` lookup. When the key is absent,
Jinja2's subscript yields the default `Undefined`, and iterating over the
default `Undefined` produces zero iterations, so a missing key behaves as the
empty list. -/
def extraConfigsFor (solution : String) : List ExtraConfig :=
  match extra_configs.find? (fun p => p.1 == solution) with
  | some p => p.2
  | none => []

/-- One step of the rendered document: the four fixed preamble steps, and the
per-solution Build, Verify and Verify-variant steps the template's loops
emit. -/
inductive Step where
  | pullDevImage
  | getKubernetesCredentials
  | copyKubectlCredentials
  | copyGcloudCredentials
  | build (solution : String)
  | verify (solution : String)
  | verifyExtra (solution : String) (cfg : ExtraConfig)
deriving DecidableEq

/-- The `id:` field of a step, exactly as the template writes it. -/
def Step.id : Step → String
  | .pullDevImage => "Pull Dev Image"
  | .getKubernetesCredentials => "Get Kubernetes Credentials"
  | .copyKubectlCredentials => "Copy kubectl Credentials"
  | .copyGcloudCredentials => "Copy gcloud Credentials"
  | .build s => "Build " ++ s
  | .verify s => "Verify " ++ s
  | .verifyExtra s c => "Verify " ++ s ++ " (" ++ c.name ++ ")"

/-- The `waitFor:` list of a step, exactly as the template writes it (empty
when the template writes no `waitFor:` block). -/
def Step.waitFor : Step → List String
  | .copyKubectlCredentials => ["Get Kubernetes Credentials"]
  | .copyGcloudCredentials => ["Get Kubernetes Credentials"]
  | .verify s =>
      ["Copy kubectl Credentials", "Copy gcloud Credentials", "Pull Dev Image", "Build " ++ s]
  | .verifyExtra s _ =>
      ["Copy kubectl Credentials", "Copy gcloud Credentials", "Pull Dev Image", "Build " ++ s]
  | _ => []

/-- The solution a step was generated for, `none` for the fixed preamble. -/
def Step.solution? : Step → Option String
  | .build s => some s
  | .verify s => some s
  | .verifyExtra s _ => some s
  | _ => none

/-- The `# Non-default variables.` entries of a step: the variant's
environment-variable strings for a Verify-variant step, nothing for any
other step. -/
def Step.extraEnv : Step → List String
  | .verifyExtra _ c => c.env_vars
  | _ => []

/-- The static text of `CLOUDBUILD_TEMPLATE` before the first step: license
header, generated-file banner, timeout, options, substitutions and the
`steps:` key. -/
def headerText : String :=
  "# Copyright 2018 Google LLC\n" ++
  "#\n" ++
  "# Licensed under the Apache License, Version 2.0 (the \"License\");\n" ++
  "# you may not use this file except in compliance with the License.\n" ++
  "# You may obtain a copy of the License at\n" ++
  "#\n" ++
  "#      http://www.apache.org/licenses/LICENSE-2.0\n" ++
  "#\n" ++
  "# Unless required by applicable law or agreed to in writing, software\n" ++
  "# distributed under the License is distributed on an \"AS IS\" BASIS,\n" ++
  "# WITHOUT WARRANTIES OR CONDITIONS OF ANY KIND, either express or implied.\n" ++
  "# See the License for the specific language governing permissions and\n" ++
  "# limitations under the License.\n" ++
  "\n" ++
  "##################################################################################\n" ++
  "## This file is generated by cloudbuild-k8s-generator.py. Do not manually edit. ##\n" ++
  "##################################################################################\n" ++
  "\n" ++
  "timeout: 1800s # 30m\n" ++
  "options:\n" ++
  "  machineType: 'N1_HIGHCPU_8'\n" ++
  "substitutions:\n" ++
  "  _CLUSTER_NAME: cluster-1\n" ++
  "  _CLUSTER_LOCATION: us-central1\n" ++
  "steps:"

/-- The `env:` block shared verbatim by the Build, Verify and Verify-variant
templates. -/
def envBlockText : String :=
  "\n  env:" ++
  "\n  - 'KUBE_CONFIG=/workspace/.kube'" ++
  "\n  - 'GCLOUD_CONFIG=/workspace/.config/gcloud'" ++
  "\n  # Use local Docker network named cloudbuild as described here:" ++
  "\n  # https://cloud.google.com/cloud-build/docs/overview#build_configuration_and_build_steps" ++
  "\n  - 'EXTRA_DOCKER_PARAMS=--net cloudbuild'"

/-- The `waitFor:` block shared verbatim by the Verify and Verify-variant
templates. -/
def verifyWaitForText (solution : String) : String :=
  "\n  waitFor:" ++
  "\n  - Copy kubectl Credentials" ++
  "\n  - Copy gcloud Credentials" ++
  "\n  - Pull Dev Image" ++
  "\n  - Build " ++ solution

/-- The `# Non-default variables.` lines the inner template loop emits, one
`  - '<env_var>'` line per entry, in order. -/
def envVarLines : List String → String
  | [] => ""
  | v :: rest => "\n  - '" ++ v ++ "'" ++ envVarLines rest

/-- The text one step contributes to the rendered document. Each fragment
starts with the blank line that separates steps (the template's `{%-` tags
strip the whitespace before each loop tag) and ends without a newline. -/
def stepText : Step → String
  | .pullDevImage =>
      "\n\n- id: Pull Dev Image" ++
      "\n  name: gcr.io/cloud-builders/docker" ++
      "\n  dir: k8s" ++
      "\n  entrypoint: bash" ++
      "\n  args:" ++
      "\n  - -exc" ++
      "\n  - |" ++
      "\n    TAG=\"$$(cat ./MARKETPLACE_TOOLS_TAG)\"" ++
      "\n    docker pull \"gcr.io/cloud-marketplace-tools/k8s/dev:$$TAG\"" ++
      "\n    docker tag \"gcr.io/cloud-marketplace-tools/k8s/dev:$$TAG\" \"gcr.io/cloud-marketplace-tools/k8s/dev:local\""
  | .getKubernetesCredentials =>
      "\n\n- id: Get Kubernetes Credentials" ++
      "\n  name: gcr.io/cloud-builders/gcloud" ++
      "\n  args:" ++
      "\n  - container" ++
      "\n  - clusters" ++
      "\n  - get-credentials" ++
      "\n  - '$_CLUSTER_NAME'" ++
      "\n  - --region" ++
      "\n  - '$_CLUSTER_LOCATION'" ++
      "\n  - --project" ++
      "\n  - '$PROJECT_ID'"
  | .copyKubectlCredentials =>
      "\n\n- id: Copy kubectl Credentials" ++
      "\n  name: gcr.io/google-appengine/debian9" ++
      "\n  waitFor:" ++
      "\n  - Get Kubernetes Credentials" ++
      "\n  entrypoint: bash" ++
      "\n  args:" ++
      "\n  - -exc" ++
      "\n  - |" ++
      "\n    mkdir -p /workspace/.kube/" ++
      "\n    cp -r $$HOME/.kube/ /workspace/"
  | .copyGcloudCredentials =>
      "\n\n- id: Copy gcloud Credentials" ++
      "\n  name: gcr.io/google-appengine/debian9" ++
      "\n  waitFor:" ++
      "\n  - Get Kubernetes Credentials" ++
      "\n  entrypoint: bash" ++
      "\n  args:" ++
      "\n  - -exc" ++
      "\n  - |" ++
      "\n    mkdir -p /workspace/.config/gcloud/" ++
      "\n    cp -r $$HOME/.config/gcloud/ /workspace/.config/"
  | .build s =>
      "\n\n- id: Build " ++ s ++
      "\n  name: gcr.io/cloud-marketplace-tools/k8s/dev:local" ++
      envBlockText ++
      "\n  dir: k8s/" ++ s ++
      "\n  args:" ++
      "\n  - make" ++
      "\n  - -j4" ++
      "\n  - app/build"
  | .verify s =>
      "\n\n- id: Verify " ++ s ++
      "\n  name: gcr.io/cloud-marketplace-tools/k8s/dev:local" ++
      verifyWaitForText s ++
      envBlockText ++
      "\n  dir: k8s/" ++ s ++
      "\n  args:" ++
      "\n  - make" ++
      "\n  - -j4" ++
      "\n  - app/verify"
  | .verifyExtra s c =>
      "\n\n- id: Verify " ++ s ++ " (" ++ c.name ++ ")" ++
      "\n  name: gcr.io/cloud-marketplace-tools/k8s/dev:local" ++
      verifyWaitForText s ++
      envBlockText ++
      "\n  # Non-default variables." ++
      envVarLines c.env_vars ++
      "\n  dir: k8s/" ++ s ++
      "\n  args:" ++
      "\n  - make" ++
      "\n  - -j4" ++
      "\n  - app/verify"

/-- The four fixed steps the template emits before any loop. -/
def preambleSteps : List Step :=
  [Step.pullDevImage, Step.getKubernetesCredentials,
   Step.copyKubectlCredentials, Step.copyGcloudCredentials]

/-- The steps the template's second loop emits for one solution: the base
Verify step, then one Verify-variant step per `extra_configs` entry of the
solution, in order. -/
def verifySegment (s : String) : List Step :=
  Step.verify s :: (extraConfigsFor s).map (Step.verifyExtra s)

/-- All steps of the rendered document, in document order: the fixed
preamble, one Build step per solution in order, then per solution its
Verify step followed by its Verify-variant steps. -/
def docSteps (solutions : List String) : List Step :=
  preambleSteps ++ solutions.map Step.build ++ solutions.flatMap verifySegment

/-- Concatenation of the step fragments, in order. -/
def renderSteps : List Step → String
  | [] => ""
  | st :: rest => stepText st ++ renderSteps rest

/-- `Template(CLOUDBUILD_TEMPLATE).render(solutions=..., extra_configs=...)`:
the header followed by every step's fragment. -/
def renderTemplate (solutions : List String) : String :=
  headerText ++ renderSteps (docSteps solutions)

/-- The string `main` writes or verifies: the rendered template plus the
appended `'\n'`. -/
def cloudbuildContents (solutions : List String) : String :=
  renderTemplate solutions ++ "\n"

/-- The filesystem state the script touches: the entries of the `k8s`
directory (each a name with an is-directory flag, in arbitrary listing
order) and the raw text of `cloudbuild.yaml` (`none` when the file does not
exist). -/
structure FileSystem where
  k8sEntries : List (String × Bool)
  cloudbuild : Option String
deriving DecidableEq

/-- `[f for f in os.listdir('k8s') if os.path.isdir(os.path.join('k8s', f))]`:
the names of the immediate subdirectories, plain files excluded. -/
def listdir (fs : FileSystem) : List String :=
  (fs.k8sEntries.filter (fun e => e.2)).map (fun e => e.1)

/-- Python's comparison of two strings: lexicographic, code point by code
point, a strict prefix before any extension of it. -/
def charsLe : List Char → List Char → Bool
  | [], _ => true
  | _ :: _, [] => false
  | a :: as, b :: bs =>
    if a < b then true
    else if b < a then false
    else charsLe as bs

/-- `a <= b` on Python strings. -/
def strLe (a b : String) : Bool :=
  charsLe a.data b.data

/-- `listdir.sort()` followed by the skip-list loop: sort ascending, keep the
names not in `skiplist`. -/
def solutionsToBuild (fs : FileSystem) : List String :=
  ((listdir fs).mergeSort strLe).filter (fun s => decide (s ∉ skiplist))

/-- Universal-newline translation of Python's text-mode read: each `"\r\n"`
pair and each remaining lone `'\r'` becomes `'\n'`. -/
def univNewlines : List Char → List Char
  | [] => []
  | [c] => if c = '\r' then ['\n'] else [c]
  | c :: d :: rest =>
    if c = '\r' then
      if d = '\n' then '\n' :: univNewlines rest
      else '\n' :: univNewlines (d :: rest)
    else
      c :: univNewlines (d :: rest)

/-- What `open(path, 'r').read()` returns for a file whose stored text is
`raw`: the text after universal-newline translation. -/
def readText (raw : String) : String :=
  (univNewlines raw.data).asString

/-- `verify_cloudbuild(cloudbuild_contents)`: `False` when `cloudbuild.yaml`
does not exist, else whether the file's text as read equals the rendered
contents. -/
def verify_cloudbuild (fs : FileSystem) (cloudbuild_contents : String) : Bool :=
  match fs.cloudbuild with
  | none => false
  | some raw => readText raw == cloudbuild_contents

/-- The outcome of one invocation: the filesystem afterwards and the process
exit status. -/
structure RunResult where
  fs : FileSystem
  exitCode : Nat
deriving DecidableEq

/-- `main()`: render the document in memory, then either verify (exit 0 on a
match, 1 otherwise, the filesystem untouched) or overwrite
`cloudbuild.yaml` (normal termination, exit status 0). -/
def main (verify_only : Bool) (fs : FileSystem) : RunResult :=
  let cloudbuild_contents := cloudbuildContents (solutionsToBuild fs)
  if verify_only then
    if verify_cloudbuild fs cloudbuild_contents then
      { fs := fs, exitCode := 0 }
    else
      { fs := fs, exitCode := 1 }
  else
    { fs := { fs with cloudbuild := some cloudbuild_contents }, exitCode := 0 }

/-- The base Verify step's solution: `some s` exactly for `Step.verify s`,
`none` for every other step (Verify-variant steps included). -/
def baseVerifySolution : Step → Option String
  | .verify s => some s
  | _ => none

/-- A string without carriage returns: text-mode reading returns it
unchanged. -/
def noCR (s : String) : Prop := ∀ c ∈ s.data, c ≠ '\r'

instance (s : String) : Decidable (noCR s) :=
  inferInstanceAs (Decidable (∀ c ∈ s.data, c ≠ '\x0d'))

/-- Rewrite every `'\n'` as `"\r\n"`: a CRLF re-encoding of a text. -/
def expandLF : List Char → List Char
  | [] => []
  | c :: rest => if c = '\n' then '\r' :: '\n' :: expandLF rest else c :: expandLF rest

/-- The document rendered for an empty directory set, re-encoded with CRLF
line endings: on disk its bytes differ from the rendered document in every
line ending. -/
def crlfRaw : String :=
  (expandLF (cloudbuildContents []).data).asString

/-- A filesystem whose `k8s` directory is empty and whose `cloudbuild.yaml`
is the CRLF re-encoding of the document rendered for it. -/
def fsCrlf : FileSystem := ⟨[], some crlfRaw⟩

/-- A filesystem whose `k8s` directory holds one subdirectory whose name
contains a carriage return. -/
def fsCarriage : FileSystem := ⟨[("a\rb", true)], none⟩

/-- A filesystem whose `k8s` directory holds exactly the subdirectory
`wordpress`. -/
def fsWordpress : FileSystem := ⟨[("wordpress", true)], none⟩

/-- A filesystem whose `k8s` directory holds one plain file and no
subdirectory. -/
def fsFileOnly : FileSystem := ⟨[("README.md", false)], none⟩

/-- A filesystem whose `k8s` directory holds the subdirectories `wordpress`
and `redis`, listed in that order. -/
def fsPermA : FileSystem := ⟨[("wordpress", true), ("redis", true)], none⟩

/-- A filesystem with the same `k8s` entries as `fsPermA` in the opposite
listing order, and a different `cloudbuild.yaml`. -/
def fsPermB : FileSystem := ⟨[("redis", true), ("wordpress", true)], some "stale"⟩

/-- `okFrom seen l`: walking `l` in order, every step's `waitFor` entries
name an id in `seen` or the id of an earlier step of `l`. -/
def okFrom : List String → List Step → Prop
  | _, [] => True
  | seen, st :: rest => (∀ w ∈ st.waitFor, w ∈ seen) ∧ okFrom (seen ++ [st.id]) rest

/-! ## Lemmas about the lexicographic comparison -/

theorem charsLe_total : ∀ a b : List Char, (charsLe a b || charsLe b a) = true
  | [], b => by simp [charsLe]
  | a :: as, [] => by simp [charsLe]
  | a :: as, b :: bs => by
    by_cases hab : a < b
    · simp [charsLe, hab]
    · by_cases hba : b < a
      · simp [charsLe, hab, hba]
      · simpa [charsLe, hab, hba] using charsLe_total as bs

theorem charsLe_trans :
    ∀ a b c : List Char,
      charsLe a b = true → charsLe b c = true → charsLe a c = true
  | [], _, _, _, _ => by simp [charsLe]
  | a :: as, [], c, h1, _ => by simp [charsLe] at h1
  | a :: as, b :: bs, [], _, h2 => by simp [charsLe] at h2
  | a :: as, b :: bs, c :: cs, h1, h2 => by
    by_cases hab : a < b
    · by_cases hbc : b < c
      · simp [charsLe, lt_trans hab hbc]
      · by_cases hcb : c < b
        · simp [charsLe, hbc, hcb] at h2
        · have hbceq : b = c := le_antisymm (le_of_not_lt hcb) (le_of_not_lt hbc)
          subst hbceq
          simp [charsLe, hab]
    · by_cases hba : b < a
      · simp [charsLe, hab, hba] at h1
      · have habeq : a = b := le_antisymm (le_of_not_lt hba) (le_of_not_lt hab)
        subst habeq
        by_cases hac : a < c
        · simp [charsLe, hac]
        · by_cases hca : c < a
          · simp [charsLe, lt_asymm hca, hca] at h2
          · simp [charsLe, hac, hca] at h1 h2 ⊢
            exact charsLe_trans as bs cs h1 h2

theorem strLe_trans (a b c : String) (h1 : strLe a b = true) (h2 : strLe b c = true) :
    strLe a c = true :=
  charsLe_trans a.data b.data c.data h1 h2

theorem strLe_total (a b : String) : (strLe a b || strLe b a) = true :=
  charsLe_total a.data b.data

theorem charsLe_antisymm :
    ∀ a b : List Char, charsLe a b = true → charsLe b a = true → a = b
  | [], [], _, _ => rfl
  | [], b :: bs, _, h2 => by simp [charsLe] at h2
  | a :: as, [], h1, _ => by simp [charsLe] at h1
  | a :: as, b :: bs, h1, h2 => by
    by_cases hab : a < b
    · simp [charsLe, hab, lt_asymm hab] at h2
    · by_cases hba : b < a
      · simp [charsLe, hab, hba] at h1
      · have heq : a = b := le_antisymm (le_of_not_lt hba) (le_of_not_lt hab)
        subst heq
        simp [charsLe, lt_irrefl] at h1 h2
        rw [charsLe_antisymm as bs h1 h2]

theorem strLe_antisymm (a b : String) (h1 : strLe a b = true) (h2 : strLe b a = true) :
    a = b :=
  String.ext (charsLe_antisymm a.data b.data h1 h2)

/-! ## Lemmas about carriage returns and text-mode reading -/

theorem mem_data_append_left {c : Char} (a b : String) (h : c ∈ a.data) :
    c ∈ (a ++ b).data := by
  rw [String.data_append]
  exact List.mem_append.mpr (Or.inl h)

theorem mem_data_append_right {c : Char} (a b : String) (h : c ∈ b.data) :
    c ∈ (a ++ b).data := by
  rw [String.data_append]
  exact List.mem_append.mpr (Or.inr h)

theorem data_asString (l : List Char) : (l.asString).data = l :=
  List.toList_asString l

theorem noCR_append {a b : String} (ha : noCR a) (hb : noCR b) : noCR (a ++ b) := by
  intro c hc
  rw [String.data_append] at hc
  rcases List.mem_append.mp hc with h | h
  · exact ha c h
  · exact hb c h

theorem noCR_envVarLines {l : List String} (h : ∀ v ∈ l, noCR v) :
    noCR (envVarLines l) := by
  induction l with
  | nil => intro c hc; simp [envVarLines] at hc
  | cons v rest ih =>
    simp only [envVarLines]
    exact noCR_append
      (noCR_append (noCR_append (by decide) (h v (by simp))) (by decide))
      (ih fun w hw => h w (by simp [hw]))

theorem univNewlines_of_noCR : ∀ l : List Char, (∀ c ∈ l, c ≠ '\r') → univNewlines l = l
  | [], _ => rfl
  | [c], h => by
    have : c ≠ '\r' := h c (by simp)
    simp [univNewlines, this]
  | c :: d :: rest, h => by
    have hc : c ≠ '\r' := h c (by simp)
    have : univNewlines (d :: rest) = d :: rest :=
      univNewlines_of_noCR (d :: rest) (fun x hx => h x (by simp at hx ⊢; tauto))
    simp [univNewlines, hc, this]

theorem readText_of_noCR {s : String} (h : noCR s) : readText s = s := by
  rw [readText, univNewlines_of_noCR s.data h]
  exact String.asString_toList s

/-- `univNewlines` leaves a text unchanged only when the text has no
carriage return. -/
theorem not_mem_cr_of_univNewlines_eq : ∀ l : List Char, univNewlines l = l → '\r' ∉ l
  | [], _ => by simp
  | [c], h => by
    by_cases hc : c = '\r'
    · subst hc
      rw [show univNewlines ['\r'] = ['\n'] from by simp [univNewlines]] at h
      rw [List.cons.injEq] at h
      exact absurd h.1 (by decide)
    · intro hmem
      rw [List.mem_singleton] at hmem
      exact hc hmem.symm
  | c :: d :: rest, h => by
    by_cases hc : c = '\r'
    · subst hc
      by_cases hd : d = '\n'
      · subst hd
        rw [show univNewlines ('\r' :: '\n' :: rest) = '\n' :: univNewlines rest from by
          simp [univNewlines]] at h
        rw [List.cons.injEq] at h
        exact absurd h.1 (by decide)
      · rw [show univNewlines ('\r' :: d :: rest) = '\n' :: univNewlines (d :: rest) from by
          simp [univNewlines, hd]] at h
        rw [List.cons.injEq] at h
        exact absurd h.1 (by decide)
    · rw [show univNewlines (c :: d :: rest) = c :: univNewlines (d :: rest) from by
        simp [univNewlines, hc]] at h
      rw [List.cons.injEq] at h
      have hrest := not_mem_cr_of_univNewlines_eq (d :: rest) h.2
      intro hmem
      rcases List.mem_cons.mp hmem with hceq | hmem2
      · exact hc hceq.symm
      · exact hrest hmem2

theorem univNewlines_expandLF :
    ∀ l : List Char, (∀ c ∈ l, c ≠ '\r') → univNewlines (expandLF l) = l := by
  intro l
  induction l with
  | nil => intro _; rfl
  | cons c rest ih =>
    intro h
    have hc : c ≠ '\r' := h c (by simp)
    have hrest : univNewlines (expandLF rest) = rest :=
      ih (fun x hx => h x (by simp [hx]))
    by_cases hcn : c = '\n'
    · subst hcn
      show univNewlines ('\r' :: '\n' :: expandLF rest) = '\n' :: rest
      rw [show univNewlines ('\r' :: '\n' :: expandLF rest)
            = '\n' :: univNewlines (expandLF rest) from by simp [univNewlines]]
      rw [hrest]
    · show univNewlines (if c = '\n' then '\r' :: '\n' :: expandLF rest
          else c :: expandLF rest) = c :: rest
      rw [if_neg hcn]
      cases he : expandLF rest with
      | nil =>
        rw [show univNewlines [c] = [c] from by simp [univNewlines, hc]]
        rw [he] at hrest
        rw [show univNewlines ([] : List Char) = [] from rfl] at hrest
        rw [← hrest]
      | cons d ds =>
        rw [show univNewlines (c :: d :: ds) = c :: univNewlines (d :: ds) from by
          simp [univNewlines, hc]]
        rw [← he, hrest]

theorem not_mem_lf_of_expandLF_eq : ∀ l : List Char, expandLF l = l → '\n' ∉ l
  | [], _ => by simp
  | c :: rest, h => by
    by_cases hcn : c = '\n'
    · subst hcn
      rw [show expandLF ('\n' :: rest) = '\r' :: '\n' :: expandLF rest from by
        simp [expandLF]] at h
      rw [List.cons.injEq] at h
      exact absurd h.1 (by decide)
    · rw [show expandLF (c :: rest) = c :: expandLF rest from by simp [expandLF, hcn]] at h
      rw [List.cons.injEq] at h
      have hrest := not_mem_lf_of_expandLF_eq rest h.2
      intro hmem
      rcases List.mem_cons.mp hmem with hceq | hmem2
      · exact hcn hceq.symm
      · exact hrest hmem2

/-! ## Carriage returns never occur in the static template text -/

theorem noCR_headerText : noCR headerText := by
  unfold headerText
  repeat' apply noCR_append
  all_goals decide

theorem noCR_envBlockText : noCR envBlockText := by
  unfold envBlockText
  repeat' apply noCR_append
  all_goals decide

theorem noCR_verifyWaitForText {s : String} (hs : noCR s) : noCR (verifyWaitForText s) := by
  unfold verifyWaitForText
  repeat' apply noCR_append
  all_goals first | assumption | decide

theorem noCR_stepText (st : Step)
    (hsol : ∀ s, st.solution? = some s → noCR s)
    (hcfg : ∀ s c, st = Step.verifyExtra s c → noCR c.name ∧ ∀ v ∈ c.env_vars, noCR v) :
    noCR (stepText st) := by
  cases st with
  | pullDevImage => decide
  | getKubernetesCredentials => decide
  | copyKubectlCredentials => decide
  | copyGcloudCredentials => decide
  | build s =>
    have hs : noCR s := hsol s rfl
    unfold stepText
    repeat' apply noCR_append
    all_goals first | assumption | exact noCR_envBlockText | decide
  | verify s =>
    have hs : noCR s := hsol s rfl
    unfold stepText
    repeat' apply noCR_append
    all_goals first
      | assumption | exact noCR_envBlockText | exact noCR_verifyWaitForText hs | decide
  | verifyExtra s c =>
    have hs : noCR s := hsol s rfl
    have hname : noCR c.name := (hcfg s c rfl).1
    have henv : ∀ v ∈ c.env_vars, noCR v := (hcfg s c rfl).2
    unfold stepText
    repeat' apply noCR_append
    all_goals first
      | assumption | exact noCR_envBlockText | exact noCR_verifyWaitForText hs
      | exact noCR_envVarLines henv | decide

theorem noCR_renderSteps {l : List Step} (h : ∀ st ∈ l, noCR (stepText st)) :
    noCR (renderSteps l) := by
  induction l with
  | nil => intro c hc; simp [renderSteps] at hc
  | cons st rest ih =>
    simp only [renderSteps]
    exact noCR_append (h st (by simp)) (ih fun x hx => h x (by simp [hx]))

/-- Every extra config of the static map is carriage-return free. -/
theorem extraConfigsFor_noCR (s : String) (c : ExtraConfig) (hc : c ∈ extraConfigsFor s) :
    noCR c.name ∧ ∀ v ∈ c.env_vars, noCR v := by
  unfold extraConfigsFor at hc
  cases hfind : extra_configs.find? (fun p => p.1 == s) with
  | none => rw [hfind] at hc; simp at hc
  | some p =>
    rw [hfind] at hc
    have hp : p ∈ extra_configs := List.mem_of_find?_eq_some hfind
    simp only [extra_configs, List.mem_singleton] at hp
    subst hp
    rcases List.mem_cons.mp hc with hc1 | hc2
    · subst hc1; exact ⟨by decide, by decide⟩
    · rw [List.mem_singleton] at hc2; subst hc2; exact ⟨by decide, by decide⟩

/-- Where a step of the document comes from: the fixed preamble, a Build
step of a solution, a base Verify step of a solution, or a Verify-variant
step of a solution and one of its extra configs. -/
theorem mem_docSteps {sols : List String} {st : Step} (hst : st ∈ docSteps sols) :
    st ∈ preambleSteps
    ∨ (∃ s ∈ sols, st = Step.build s)
    ∨ (∃ s ∈ sols, st = Step.verify s)
    ∨ (∃ s ∈ sols, ∃ c ∈ extraConfigsFor s, st = Step.verifyExtra s c) := by
  simp only [docSteps, List.mem_append] at hst
  rcases hst with (hpre | hbuild) | hseg
  · exact Or.inl hpre
  · rcases List.mem_map.mp hbuild with ⟨s, hs, heq⟩
    exact Or.inr (Or.inl ⟨s, hs, heq.symm⟩)
  · rcases List.mem_flatMap.mp hseg with ⟨s, hs, hseg2⟩
    rcases List.mem_cons.mp hseg2 with heq | hmap
    · exact Or.inr (Or.inr (Or.inl ⟨s, hs, heq⟩))
    · rcases List.mem_map.mp hmap with ⟨c, hc, heq⟩
      exact Or.inr (Or.inr (Or.inr ⟨s, hs, c, hc, heq.symm⟩))

theorem noCR_cloudbuildContents {sols : List String} (h : ∀ s ∈ sols, noCR s) :
    noCR (cloudbuildContents sols) := by
  unfold cloudbuildContents renderTemplate
  apply noCR_append (noCR_append noCR_headerText ?_) (by decide)
  apply noCR_renderSteps
  intro st hst
  rcases mem_docSteps hst with hpre | ⟨s, hs, rfl⟩ | ⟨s, hs, rfl⟩ | ⟨s, hs, c, hc, rfl⟩
  · simp only [preambleSteps, List.mem_cons, List.mem_singleton] at hpre
    rcases hpre with rfl | rfl | rfl | (rfl | h')
    · decide
    · decide
    · decide
    · decide
    · simp at h'
  · exact noCR_stepText _ (fun x hx => by simp [Step.solution?] at hx; subst hx; exact h s hs)
      (fun x c hx => by simp at hx)
  · exact noCR_stepText _ (fun x hx => by simp [Step.solution?] at hx; subst hx; exact h s hs)
      (fun x c hx => by simp at hx)
  · exact noCR_stepText _
      (fun x hx => by simp [Step.solution?] at hx; subst hx; exact h s hs)
      (fun x cx hx => by
        rw [Step.verifyExtra.injEq] at hx
        rcases hx with ⟨rfl, rfl⟩
        exact extraConfigsFor_noCR s c hc)

/-! ## The waitFor graph: every reference points backwards -/

theorem okFrom_mono :
    ∀ (l : List Step) {seen seen' : List String},
      seen ⊆ seen' → okFrom seen l → okFrom seen' l
  | [], _, _, _, _ => trivial
  | st :: rest, seen, seen', hsub, h => by
    refine ⟨fun w hw => hsub (h.1 w hw), ?_⟩
    refine okFrom_mono rest (fun x hx => ?_) h.2
    rcases List.mem_append.mp hx with h1 | h1
    · exact List.mem_append.mpr (Or.inl (hsub h1))
    · exact List.mem_append.mpr (Or.inr h1)

theorem okFrom_of_all :
    ∀ (l : List Step) {seen : List String},
      (∀ st ∈ l, ∀ w ∈ st.waitFor, w ∈ seen) → okFrom seen l
  | [], _, _ => trivial
  | st :: rest, seen, h => by
    refine ⟨h st (by simp), ?_⟩
    refine okFrom_mono rest (List.subset_append_left seen [st.id]) ?_
    exact okFrom_of_all rest (fun x hx w hw => h x (by simp [hx]) w hw)

theorem okFrom_append :
    ∀ (l₁ : List Step) {l₂ : List Step} {seen : List String},
      okFrom seen l₁ → okFrom (seen ++ l₁.map Step.id) l₂ → okFrom seen (l₁ ++ l₂)
  | [], l₂, seen, _, h₂ => by simpa using h₂
  | st :: rest, l₂, seen, h₁, h₂ => by
    refine ⟨h₁.1, ?_⟩
    refine okFrom_append rest h₁.2 ?_
    have harr : seen ++ [st.id] ++ rest.map Step.id
        = seen ++ (st :: rest).map Step.id := by
      simp
    rw [harr]
    exact h₂

theorem okFrom_split :
    ∀ (pre : List Step) {seen : List String} {st : Step} {post l : List Step},
      okFrom seen l → l = pre ++ st :: post →
      ∀ w ∈ st.waitFor, w ∈ seen ++ pre.map Step.id
  | [], seen, st, post, l, h, he, w, hw => by
    subst he
    exact List.mem_append.mpr (Or.inl (h.1 w hw))
  | p :: pre, seen, st, post, l, h, he, w, hw => by
    subst he
    have hr := okFrom_split pre h.2 rfl w hw
    have harr : seen ++ [p.id] ++ pre.map Step.id
        = seen ++ (p :: pre).map Step.id := by
      simp
    rw [harr] at hr
    exact hr

theorem okFrom_docSteps (sols : List String) : okFrom [] (docSteps sols) := by
  unfold docSteps
  refine okFrom_append _ (okFrom_append _ ?_ ?_) ?_
  · -- the fixed preamble references only earlier preamble steps
    simp only [preambleSteps, okFrom]
    decide
  · -- build steps wait for nothing
    refine okFrom_of_all _ (fun st hst w hw => ?_)
    rcases List.mem_map.mp hst with ⟨s, _, heq⟩
    subst heq
    simp [Step.waitFor] at hw
  · -- every verify step waits only on preamble steps and its own build step
    refine okFrom_of_all _ (fun st hst w hw => ?_)
    rcases List.mem_flatMap.mp hst with ⟨s, hs, hseg⟩
    have hbuild : ("Build " ++ s)
        ∈ [] ++ (preambleSteps ++ sols.map Step.build).map Step.id := by
      simp only [List.nil_append, List.map_append, List.map_map]
      refine List.mem_append.mpr (Or.inr ?_)
      exact List.mem_map.mpr ⟨s, hs, rfl⟩
    have hstat : ∀ w2 ∈ (["Copy kubectl Credentials", "Copy gcloud Credentials",
        "Pull Dev Image"] : List String),
        w2 ∈ [] ++ (preambleSteps ++ sols.map Step.build).map Step.id := by
      intro w2 hw2
      simp only [List.nil_append, List.map_append]
      refine List.mem_append.mpr (Or.inl ?_)
      fin_cases hw2 <;> decide
    have hwf : st.waitFor = ["Copy kubectl Credentials", "Copy gcloud Credentials",
        "Pull Dev Image", "Build " ++ s] := by
      rcases List.mem_cons.mp hseg with heq | hmap
      · subst heq; rfl
      · rcases List.mem_map.mp hmap with ⟨c, _, heq⟩
        subst heq; rfl
    rw [hwf] at hw
    rcases List.mem_cons.mp hw with rfl | hw
    · exact hstat _ (by simp)
    rcases List.mem_cons.mp hw with rfl | hw
    · exact hstat _ (by simp)
    rcases List.mem_cons.mp hw with rfl | hw
    · exact hstat _ (by simp)
    rcases List.mem_cons.mp hw with rfl | hw
    · exact hbuild
    · simp at hw

/-! ## Concrete evaluations used by the witnesses and counterexamples -/

theorem solutionsToBuild_fsWordpress : solutionsToBuild fsWordpress = ["wordpress"] := by
  unfold solutionsToBuild
  rw [show listdir fsWordpress = ["wordpress"] from rfl, List.mergeSort_singleton]
  rfl

theorem solutionsToBuild_fsCarriage : solutionsToBuild fsCarriage = ["a\rb"] := by
  unfold solutionsToBuild
  rw [show listdir fsCarriage = ["a\rb"] from rfl, List.mergeSort_singleton]
  rfl

theorem lf_mem_contents_nil : '\n' ∈ (cloudbuildContents []).data := by
  unfold cloudbuildContents
  exact mem_data_append_right _ "\n" (by decide)

theorem cr_mem_contents_carriage : '\r' ∈ (cloudbuildContents ["a\rb"]).data := by
  unfold cloudbuildContents renderTemplate
  apply mem_data_append_left
  apply mem_data_append_right
  rw [show docSteps ["a\rb"]
      = [Step.pullDevImage, Step.getKubernetesCredentials, Step.copyKubectlCredentials,
         Step.copyGcloudCredentials, Step.build "a\rb", Step.verify "a\rb"] from rfl]
  simp only [renderSteps]
  apply mem_data_append_right
  apply mem_data_append_right
  apply mem_data_append_right
  apply mem_data_append_right
  apply mem_data_append_left
  decide

/-- In verify mode the exit status is decided by `verify_cloudbuild` alone. -/
theorem main_true_exitCode (fs : FileSystem) :
    (main true fs).exitCode
      = if verify_cloudbuild fs (cloudbuildContents (solutionsToBuild fs)) then 0 else 1 := by
  cases hv : verify_cloudbuild fs (cloudbuildContents (solutionsToBuild fs)) <;>
    simp [main, hv]

/-- `filterMap` of the base-Verify observer over the verify phase recovers the
solution list: one base Verify step per solution, in order. -/
theorem filterMap_baseVerify_flatMap :
    ∀ sols : List String,
      (sols.flatMap verifySegment).filterMap baseVerifySolution = sols
  | [] => rfl
  | s :: rest => by
    rw [List.flatMap_cons, List.filterMap_append, filterMap_baseVerify_flatMap rest]
    have hseg : (verifySegment s).filterMap baseVerifySolution = [s] := by
      unfold verifySegment
      rw [List.filterMap_cons]
      have hmap : ((extraConfigsFor s).map (Step.verifyExtra s)).filterMap
          baseVerifySolution = [] := by
        rw [List.filterMap_map]
        rw [List.filterMap_eq_nil_iff]
        intro c _
        rfl
      simp [baseVerifySolution, hmap]
    rw [hseg]
    rfl

/-! ## The claims -/

/-- C1: the solution list used for rendering is the `k8s` subdirectory
listing (plain files excluded) sorted lexicographically ascending with the
skip-listed names removed: it is sorted, it is a permutation of the
non-skip-listed directory names, and no step of the rendered document
belongs to a skip-listed solution. -/
theorem solutions_sorted_skiplist_free (fs : FileSystem) :
    List.Pairwise (fun a b => strLe a b = true) (solutionsToBuild fs)
    ∧ (solutionsToBuild fs).Perm
        ((listdir fs).filter (fun s => decide (s ∉ skiplist)))
    ∧ (∀ st ∈ docSteps (solutionsToBuild fs),
        ∀ s, st.solution? = some s → s ∉ skiplist) := by
  have hmem : ∀ x, x ∈ solutionsToBuild fs → x ∉ skiplist := by
    intro x hx
    have := (List.mem_filter.mp hx).2
    simpa using this
  refine ⟨?_, ?_, ?_⟩
  · exact (List.sorted_mergeSort strLe_trans strLe_total (listdir fs)).sublist
      (List.filter_sublist _)
  · exact List.Perm.filter _ (List.mergeSort_perm (listdir fs) strLe)
  · intro st hst s hsol
    rcases mem_docSteps hst with hpre | ⟨a, ha, rfl⟩ | ⟨a, ha, rfl⟩ | ⟨a, ha, c, hc, rfl⟩
    · fin_cases hpre <;> simp [Step.solution?] at hsol
    · simp [Step.solution?] at hsol
      subst hsol
      exact hmem a ha
    · simp [Step.solution?] at hsol
      subst hsol
      exact hmem a ha
    · simp [Step.solution?] at hsol
      subst hsol
      exact hmem a ha

/-- C2 (amended): in verify mode the program exits 0 exactly when
`cloudbuild.yaml` exists and its contents, as Python's text-mode read
returns them (universal-newline translation applied, no other
normalization — a trailing-whitespace difference still mismatches), equal
the freshly rendered document; otherwise it exits 1. -/
theorem verify_exit_iff_text_equal (fs : FileSystem) :
    ((main true fs).exitCode = 0 ∨ (main true fs).exitCode = 1)
    ∧ ((main true fs).exitCode = 0
        ↔ ∃ raw, fs.cloudbuild = some raw
            ∧ readText raw = cloudbuildContents (solutionsToBuild fs)) := by
  rw [main_true_exitCode]
  cases hcb : fs.cloudbuild with
  | none => simp [verify_cloudbuild, hcb]
  | some raw =>
    by_cases heq : readText raw = cloudbuildContents (solutionsToBuild fs)
    · simp [verify_cloudbuild, hcb, heq]
    · simp [verify_cloudbuild, hcb, heq]

/-- C2 counterexample: a `cloudbuild.yaml` whose raw text is the rendered
document re-encoded with CRLF line endings is not byte-for-byte equal to
the rendered document, yet verify mode exits 0, because Python's text-mode
read folds every CRLF back to LF before the comparison. -/
theorem verify_not_byte_for_byte :
    (main true fsCrlf).exitCode = 0
    ∧ fsCrlf.cloudbuild ≠ some (cloudbuildContents (solutionsToBuild fsCrlf)) := by
  have hsol : solutionsToBuild fsCrlf = [] := by
    unfold solutionsToBuild
    rw [show listdir fsCrlf = [] from rfl, List.mergeSort_nil]
    rfl
  have hnoCR : noCR (cloudbuildContents []) := noCR_cloudbuildContents (by simp)
  have hread : readText crlfRaw = cloudbuildContents [] := by
    unfold crlfRaw readText
    rw [show ((expandLF (cloudbuildContents []).data).asString).data
        = expandLF (cloudbuildContents []).data from List.toList_asString _]
    rw [univNewlines_expandLF _ (fun c hc => hnoCR c hc)]
    exact String.asString_toList _
  constructor
  · rw [main_true_exitCode, hsol]
    have hv : verify_cloudbuild fsCrlf (cloudbuildContents []) = true := by
      show (readText crlfRaw == cloudbuildContents []) = true
      rw [hread]
      exact beq_self_eq_true _
    rw [hv]
    rfl
  · rw [hsol]
    intro h
    have hcr : crlfRaw = cloudbuildContents [] := by
      have h2 : some crlfRaw = some (cloudbuildContents []) := h
      exact Option.some_inj.mp h2
    have hdata : expandLF (cloudbuildContents []).data = (cloudbuildContents []).data := by
      have := congrArg String.data hcr
      rwa [show crlfRaw.data = expandLF (cloudbuildContents []).data from
        List.toList_asString _] at this
    exact not_mem_lf_of_expandLF_eq _ hdata lf_mem_contents_nil

/-- C3: for every rendered solution, the verify phase holds its base Verify
step immediately followed by exactly one Verify-variant step per entry of
its extra-configs list, in order; each variant step's id names the solution
and the variant's display name, and its non-default environment lines are
exactly the variant's environment-variable strings. -/
theorem extra_config_variant_steps (fs : FileSystem) (s : String)
    (h : s ∈ solutionsToBuild fs) :
    ∃ pre post,
      docSteps (solutionsToBuild fs)
        = pre ++ (Step.verify s :: (extraConfigsFor s).map (Step.verifyExtra s)) ++ post
      ∧ ((extraConfigsFor s).map (Step.verifyExtra s)).length
          = (extraConfigsFor s).length
      ∧ (∀ st, post.head? = some st → ∃ s2, st = Step.verify s2)
      ∧ (∀ c ∈ extraConfigsFor s,
          (Step.verifyExtra s c).id = "Verify " ++ s ++ " (" ++ c.name ++ ")"
          ∧ (Step.verifyExtra s c).extraEnv = c.env_vars) := by
  obtain ⟨l1, l2, hsp⟩ := List.append_of_mem h
  refine ⟨preambleSteps ++ (solutionsToBuild fs).map Step.build
      ++ l1.flatMap verifySegment, l2.flatMap verifySegment, ?_,
      List.length_map _ _, ?_, fun c hc => ⟨rfl, rfl⟩⟩
  · unfold docSteps
    rw [hsp, List.flatMap_append, List.flatMap_cons]
    simp [verifySegment, List.append_assoc]
  · intro st hst
    cases l2 with
    | nil => simp at hst
    | cons s2 l2' =>
      rw [List.flatMap_cons] at hst
      simp [verifySegment] at hst
      exact ⟨s2, hst.symm⟩

/-- C3 witness: for the directory set holding only `wordpress`, the document
holds wordpress's base Verify step immediately followed by its two variant
steps. -/
theorem extra_config_variant_steps_witness :
    ∃ pre post,
      docSteps (solutionsToBuild fsWordpress)
        = pre ++ (Step.verify "wordpress"
            :: (extraConfigsFor "wordpress").map (Step.verifyExtra "wordpress")) ++ post := by
  obtain ⟨pre, post, h1, -, -, -⟩ :=
    extra_config_variant_steps fsWordpress "wordpress"
      (by rw [solutionsToBuild_fsWordpress]; exact List.mem_singleton.mpr rfl)
  exact ⟨pre, post, h1⟩

/-- C4: a solution with no entry in the static extra-configs map renders
with zero additional verify steps: its lookup yields the empty list, its
verify segment is the base Verify step alone, and its rendered text is the
base Verify fragment alone. -/
theorem missing_extra_config_zero_variants (s : String)
    (h : ∀ p ∈ extra_configs, p.1 ≠ s) :
    extraConfigsFor s = [] ∧ verifySegment s = [Step.verify s]
    ∧ renderSteps (verifySegment s) = stepText (Step.verify s) := by
  have hfind : extra_configs.find? (fun p => p.1 == s) = none := by
    rw [List.find?_eq_none]
    intro p hp
    simp [h p hp]
  have hecf : extraConfigsFor s = [] := by
    unfold extraConfigsFor
    rw [hfind]
  refine ⟨hecf, ?_, ?_⟩
  · unfold verifySegment
    rw [hecf]
    rfl
  · unfold verifySegment
    rw [hecf]
    simp [renderSteps, String.append_empty]

/-- C4 witness: `redis` has no extra-configs entry and renders with zero
variant steps. -/
theorem missing_extra_config_zero_variants_witness : extraConfigsFor "redis" = [] :=
  (missing_extra_config_zero_variants "redis" (by decide)).1

theorem solutionsToBuild_fsFileOnly : solutionsToBuild fsFileOnly = [] := by
  unfold solutionsToBuild
  rw [show listdir fsFileOnly = [] from rfl, List.mergeSort_nil]
  rfl

/-- C5 (amended): for every directory set whose names contain no carriage
return, write mode followed immediately by verify mode reports up to date
and exits 0. (Text-mode reading folds a lone `'\r'` to `'\n'`, so a
directory name containing `'\r'` breaks the round trip; see the
counterexample.) -/
theorem write_then_verify_up_to_date (fs : FileSystem)
    (h : ∀ s ∈ listdir fs, noCR s) :
    (main true (main false fs).fs).exitCode = 0 := by
  have hsols : ∀ s ∈ solutionsToBuild fs, noCR s := by
    intro s hs
    exact h s (List.mem_mergeSort.mp (List.mem_filter.mp hs).1)
  have hC : readText (cloudbuildContents (solutionsToBuild fs))
      = cloudbuildContents (solutionsToBuild fs) :=
    readText_of_noCR (noCR_cloudbuildContents hsols)
  rw [main_true_exitCode]
  have hv : verify_cloudbuild (main false fs).fs
      (cloudbuildContents (solutionsToBuild (main false fs).fs)) = true := by
    show (readText (cloudbuildContents (solutionsToBuild fs))
        == cloudbuildContents (solutionsToBuild fs)) = true
    rw [hC]
    exact beq_self_eq_true _
  rw [hv]
  rfl

/-- C5 witness: for the directory set holding only `wordpress`, write then
verify exits 0. -/
theorem write_then_verify_up_to_date_witness :
    (main true (main false fsWordpress).fs).exitCode = 0 :=
  write_then_verify_up_to_date fsWordpress (by decide)

/-- C5 counterexample: for the directory set holding the single name
`"a\rb"` (a legal directory name), write mode followed immediately by
verify mode exits 1: the written document contains the lone `'\r'` of the
name, text-mode reading turns it into `'\n'`, and the comparison fails. -/
theorem write_then_verify_carriage_fails :
    (main true (main false fsCarriage).fs).exitCode = 1 := by
  have hsol : solutionsToBuild (main false fsCarriage).fs = ["a\rb"] := by
    unfold solutionsToBuild
    rw [show listdir (main false fsCarriage).fs = ["a\rb"] from rfl,
      List.mergeSort_singleton]
    rfl
  have hread : readText (cloudbuildContents ["a\rb"]) ≠ cloudbuildContents ["a\rb"] := by
    intro heq
    have hdata : univNewlines (cloudbuildContents ["a\rb"]).data
        = (cloudbuildContents ["a\rb"]).data := by
      unfold readText at heq
      have h2 := congrArg String.data heq
      rwa [data_asString] at h2
    exact not_mem_cr_of_univNewlines_eq _ hdata cr_mem_contents_carriage
  rw [main_true_exitCode, hsol]
  have hv : verify_cloudbuild (main false fsCarriage).fs
      (cloudbuildContents ["a\rb"]) = false := by
    show (readText (cloudbuildContents (solutionsToBuild fsCarriage))
        == cloudbuildContents ["a\rb"]) = false
    rw [solutionsToBuild_fsCarriage]
    exact beq_eq_false_iff_ne.mpr hread
  rw [hv]
  rfl

/-- C6: the rendered document is two-phase: the fixed preamble, then one
Build step per solution in order, then the verify phase; the verify phase
holds exactly one base Verify step per solution in the same order and no
Build step, and every base Verify step waits on the two credential-copying
steps, the image pull and its own solution's Build step. -/
theorem two_phase_build_then_verify (fs : FileSystem) :
    docSteps (solutionsToBuild fs)
      = preambleSteps ++ (solutionsToBuild fs).map Step.build
          ++ (solutionsToBuild fs).flatMap verifySegment
    ∧ ((solutionsToBuild fs).flatMap verifySegment).filterMap baseVerifySolution
        = solutionsToBuild fs
    ∧ (∀ st ∈ (solutionsToBuild fs).flatMap verifySegment, ∀ s, st ≠ Step.build s)
    ∧ (∀ s, (Step.verify s).waitFor
        = ["Copy kubectl Credentials", "Copy gcloud Credentials", "Pull Dev Image",
           "Build " ++ s]) := by
  refine ⟨rfl, filterMap_baseVerify_flatMap _, ?_, fun s => rfl⟩
  intro st hst s
  rcases List.mem_flatMap.mp hst with ⟨a, _, hseg⟩
  rcases List.mem_cons.mp hseg with heq | hmap
  · subst heq
    simp
  · rcases List.mem_map.mp hmap with ⟨c, _, heq⟩
    subst heq
    simp

/-- C7: for an empty directory listing the rendered output is the header,
the four fixed preamble steps and the appended trailing newline — no Build
or Verify step. -/
theorem empty_root_only_preamble (fs : FileSystem) (h : listdir fs = []) :
    solutionsToBuild fs = []
    ∧ docSteps (solutionsToBuild fs) = preambleSteps
    ∧ cloudbuildContents (solutionsToBuild fs)
        = headerText ++ renderSteps preambleSteps ++ "\n" := by
  have hsol : solutionsToBuild fs = [] := by
    unfold solutionsToBuild
    rw [h, List.mergeSort_nil]
    rfl
  refine ⟨hsol, ?_, ?_⟩
  · rw [hsol]
    simp [docSteps]
  · rw [hsol]
    unfold cloudbuildContents renderTemplate
    rw [show docSteps [] = preambleSteps from by simp [docSteps]]

/-- C7 witness: a `k8s` directory holding one plain file and no
subdirectory renders the preamble-only document. -/
theorem empty_root_only_preamble_witness :
    cloudbuildContents (solutionsToBuild fsFileOnly)
      = headerText ++ renderSteps preambleSteps ++ "\n" :=
  (empty_root_only_preamble fsFileOnly rfl).2.2

/-- C8: rendering is deterministic and depends only on the directory
contents (the static skip-list and extra-configs map are fixed): two
invocations observing the same `k8s` entries in any listing order — as
`os.listdir` may return them — render byte-identical documents, whatever
their `cloudbuild.yaml` holds; the sort normalizes the arbitrary listing
order. -/
theorem render_depends_only_on_dirs (fs1 fs2 : FileSystem)
    (h : fs1.k8sEntries.Perm fs2.k8sEntries) :
    cloudbuildContents (solutionsToBuild fs1)
      = cloudbuildContents (solutionsToBuild fs2) := by
  have hld : (listdir fs1).Perm (listdir fs2) := (h.filter _).map _
  have hperm : ((listdir fs1).mergeSort strLe).Perm ((listdir fs2).mergeSort strLe) :=
    ((List.mergeSort_perm _ _).trans hld).trans (List.mergeSort_perm _ _).symm
  have hms : (listdir fs1).mergeSort strLe = (listdir fs2).mergeSort strLe :=
    @List.eq_of_perm_of_sorted String (fun a b => strLe a b = true) ⟨strLe_antisymm⟩ _ _
      hperm
      (List.sorted_mergeSort strLe_trans strLe_total (listdir fs1))
      (List.sorted_mergeSort strLe_trans strLe_total (listdir fs2))
  unfold solutionsToBuild
  rw [hms]

/-- C8 witness: permuted listings of the same directory entries, with
different `cloudbuild.yaml` contents, render the same document. -/
theorem render_depends_only_on_dirs_witness :
    cloudbuildContents (solutionsToBuild fsPermA)
      = cloudbuildContents (solutionsToBuild fsPermB) :=
  render_depends_only_on_dirs fsPermA fsPermB (by decide)

/-- C9: verify mode never mutates the filesystem: the document is rendered
into memory and the verify branch only reads, so the state after a
verify-only run is the state before it. -/
theorem verify_mode_leaves_fs_unchanged (fs : FileSystem) :
    (main true fs).fs = fs := by
  cases hv : verify_cloudbuild fs (cloudbuildContents (solutionsToBuild fs)) <;>
    simp [main, hv]

/-- C10: every id referenced in a `waitFor:` list of the rendered document
is the id of a step defined earlier in the document. -/
theorem waitFor_references_earlier_step (fs : FileSystem) (pre : List Step)
    (st : Step) (post : List Step)
    (h : docSteps (solutionsToBuild fs) = pre ++ st :: post) :
    ∀ w ∈ st.waitFor, w ∈ pre.map Step.id := by
  have hok := okFrom_docSteps (solutionsToBuild fs)
  have hsplit := okFrom_split pre hok h
  intro w hw
  simpa using hsplit w hw

/-- C10 witness: in the document of an empty solution list, the id the
`Copy kubectl Credentials` step waits on is defined by an earlier step. -/
theorem waitFor_references_earlier_step_witness :
    "Get Kubernetes Credentials"
      ∈ ([Step.pullDevImage, Step.getKubernetesCredentials].map Step.id) :=
  waitFor_references_earlier_step fsFileOnly
    [Step.pullDevImage, Step.getKubernetesCredentials]
    Step.copyKubectlCredentials [Step.copyGcloudCredentials]
    (by rw [solutionsToBuild_fsFileOnly]; rfl)
    "Get Kubernetes Credentials" (by decide)

end CloudbuildGen
